import Mathlib

/-!
Shallow embedding of `lfs/upload_queue.go` from git-lfs: the upload-bound
Transferable (`Uploadable`), its constructor `NewUploadable`, the
reconciliation check `ensureFile`, and the byte-transfer step
`Uploadable.Transfer`.

External collaborators (the operating system's file calls, the path
resolution utility `LocalMediaPath`, the pointer codec's `PointerClean`,
and the HTTP upload) are modelled as an explicit environment `Env`
together with a filesystem state `FS`.  Observable side effects — which
paths were opened, whether the clean transform ran, how often the staging
resource was torn down, which reconciliation calls were made — are
recorded in a `Trace` so that the theorems can speak about them.
-/

namespace Lfs

/-- Errors as they flow through the Go code.  Constructors keep the data the
Go errors carry: `ioErr` stands for an error coming from `os.Stat`, `os.Open`
or `file.Stat` on a given path; `cleanErr` for an error returned by
`PointerClean`; `oidMismatch` for the `fmt.Errorf` in `ensureFile` whose
message names the smudge path, the expected OID and the directory of the
clean path; `wrapped` for `errutil.Errorf(err, "Error uploading file %s (%s)",
filename, oid)`. -/
inductive GoError where
  | ioErr (path : String) (op : String)
  | cleanErr (msg : String)
  | oidMismatch (smudgePath : String) (expectedOid : String) (dir : String)
  | wrapped (msg : String) (filename : String) (oid : String) (inner : GoError)
  deriving Repr, DecidableEq

/-- Outcome of running a piece of Go code: a normal return value, or a
runtime panic (nil pointer dereference). -/
inductive GoResult (α : Type) where
  | ok (val : α)
  | crash (msg : String)
  deriving Repr, DecidableEq

/-- Whether a `GoResult` is a normal return. -/
def GoResult.isOk {α : Type} : GoResult α → Bool
  | .ok _ => true
  | .crash _ => false

/-- An open file as the Go code observes it: its content (as the sizes of the
successive chunks a reader yields) and the result of `file.Stat()` (`none`
means the fstat call succeeds; the file size is the sum of the chunks). -/
structure GoFile where
  chunks : List Int
  fstatErr : Option GoError := none
  deriving Repr, DecidableEq

/-- Size of a file, as `stat` reports it. -/
def GoFile.size (f : GoFile) : Int := f.chunks.sum

/-- Filesystem state: which paths hold a file.  `os.Stat p` succeeds exactly
when `files p` is `some`, and `os.Open p` then yields that file. -/
structure FS where
  files : String → Option GoFile

/-- The `Pointer` returned by the clean transform, restricted to the fields
`ensureFile` uses (`cleaned.Oid`; the `Teardown` call is recorded in the
trace). -/
structure Pointer where
  Oid : String
  deriving Repr, DecidableEq

/-- Server-asserted object metadata (`api.ObjectResource`), restricted to the
fields `Transfer` reads: `Oid` and `Size`.  The authorized actions are
consumed inside the external upload call. -/
structure ObjectResource where
  Oid : String
  Size : Int
  deriving Repr, DecidableEq

/-- Trace of the observable side effects of one call: the paths passed to
`os.Open` (attempts, successful or not), how many times `PointerClean` was
invoked, how many times `Pointer.Teardown` was invoked, and which
`(smudgePath, cleanPath)` pairs `ensureFile` was called on. -/
structure Trace where
  opens : List String := []
  cleans : Nat := 0
  teardowns : Nat := 0
  ensures : List (String × String) := []
  deriving Repr, DecidableEq

/-- Environment of external collaborators.
`localWorkingDir` is `config.LocalWorkingDir`.
`localMediaPath` is the path-resolution utility `LocalMediaPath(oid)`; the Go
caller checks an error from it, so it is `Except`-valued here.
`pointerClean` is `PointerClean(file, name, size, nil)`: from the opened
file's name, its size and the current filesystem it returns the cleaned
pointer (`none` for a nil `*Pointer`), the error (`none` for nil), and the
filesystem after any CAS writes the clean transform performed.
`uploadObject` is the transport result of `api.UploadObject` for a given
authorized resource, and `uploadCheck` the result of `api.UploadCheck`. -/
structure Env where
  localWorkingDir : String
  localMediaPath : String → Except GoError String
  pointerClean : String → Int → FS → Option Pointer × Option GoError × FS
  uploadObject : ObjectResource → Option GoError
  uploadCheck : String → Option ObjectResource × Option GoError

/-- Go's `filepath.Base` for slash-separated paths: the last non-empty
component; `"."` for the empty path, `"/"` for a path of only slashes.
(The stdlib also runs `Clean`; dot-segment handling is not needed here.) -/
def filepathBase (p : String) : String :=
  if p = "" then "."
  else
    match ((p.splitOn "/").filter (fun s => s ≠ "")).getLast? with
    | some s => s
    | none => "/"

/-- Go's `filepath.Dir` for slash-separated paths: everything before the last
component.  (Dot-segment cleaning is not needed here.) -/
def filepathDir (p : String) : String :=
  let comps := (p.splitOn "/").filter (fun s => s ≠ "")
  match comps.dropLast with
  | [] => if p.startsWith "/" then "/" else "."
  | ds => (if p.startsWith "/" then "/" else "") ++ String.intercalate "/" ds

/-- Go's `filepath.Join` of two elements: empty elements are dropped, the
rest joined with a slash.  (Dot-segment cleaning is not needed here.) -/
def filepathJoin (a b : String) : String :=
  if a = "" then b else if b = "" then a else a ++ "/" ++ b

/-- Embedding of `ensureFile(smudgePath, cleanPath)` from `lfs/upload_queue.go`:
if `os.Stat(cleanPath)` succeeds, return nil at once; otherwise compute
`expectedOid := filepath.Base(cleanPath)`, open the working-copy file at
`filepath.Join(config.LocalWorkingDir, smudgePath)` (returning the open error
on failure), fstat it (returning the error on failure), run `PointerClean`,
call `Teardown` on the cleaned pointer whenever it is non-nil, return the
clean error if any, and otherwise compare `expectedOid` with `cleaned.Oid`:
on mismatch return the `fmt.Errorf` naming the smudge path, the expected OID
and `filepath.Dir(cleanPath)`; on match return nil.  Accessing `cleaned.Oid`
when `PointerClean` returned a nil pointer and a nil error is a nil
dereference, modelled as `crash`. -/
def ensureFile (env : Env) (fs : FS) (smudgePath cleanPath : String) :
    GoResult (Option GoError) × FS × Trace :=
  match fs.files cleanPath with
  | some _ => (.ok none, fs, {})
  | none =>
    let expectedOid := filepathBase cleanPath
    let localPath := filepathJoin env.localWorkingDir smudgePath
    match fs.files localPath with
    | none => (.ok (some (.ioErr localPath "open")), fs, { opens := [localPath] })
    | some file =>
      match file.fstatErr with
      | some e => (.ok (some e), fs, { opens := [localPath] })
      | none =>
        match env.pointerClean localPath file.size fs with
        | (cleaned, cerr, fs2) =>
          let tr : Trace :=
            { opens := [localPath], cleans := 1,
              teardowns := if cleaned.isSome then 1 else 0 }
          match cerr with
          | some e => (.ok (some e), fs2, tr)
          | none =>
            match cleaned with
            | none => (.crash "nil pointer dereference", fs2, tr)
            | some p =>
              if expectedOid = p.Oid then (.ok none, fs2, tr)
              else
                (.ok (some (.oidMismatch smudgePath expectedOid
                  (filepathDir cleanPath))), fs2, tr)

/-- The `Uploadable` struct: lowercase Go fields (`oid`, `size`, `object`)
are package-private, `OidPath` and `Filename` exported; `object` is a
possibly-nil pointer, hence an `Option`. -/
structure Uploadable where
  oid : String
  OidPath : String
  Filename : String
  size : Int
  object : Option ObjectResource := none
  deriving Repr, DecidableEq

/-- Embedding of `NewUploadable(oid, filename)`: resolve `LocalMediaPath(oid)` (wrapping a
failure), run `ensureFile(filename, localMediaPath)` if `len(filename) > 0`
and return its error unchanged if it fails, then `os.Stat(localMediaPath)`
(wrapping a failure) and build the `Uploadable` with the stat's size. -/
def NewUploadable (env : Env) (fs : FS) (oid filename : String) :
    GoResult (Except GoError Uploadable) × FS × Trace :=
  match env.localMediaPath oid with
  | .error err =>
    (.ok (.error (.wrapped "Error uploading file" filename oid err)), fs, {})
  | .ok localMediaPath =>
    match
      (if filename.length > 0 then
        match ensureFile env fs filename localMediaPath with
        | (r, fs2, tr) => (r, fs2, { tr with ensures := [(filename, localMediaPath)] })
      else ((.ok none : GoResult (Option GoError)), fs, ({} : Trace))) with
    | (.crash m, fs2, tr) => (.crash m, fs2, tr)
    | (.ok (some err), fs2, tr) => (.ok (.error err), fs2, tr)
    | (.ok none, fs2, tr) =>
      match fs2.files localMediaPath with
      | none =>
        (.ok (.error (.wrapped "Error uploading file" filename oid
          (.ioErr localMediaPath "stat"))), fs2, tr)
      | some fi =>
        (.ok (.ok { oid := oid, OidPath := localMediaPath, Filename := filename,
                    size := fi.size, object := none }), fs2, tr)

/-- Embedding of `func (u *Uploadable) Check()`: delegates to `api.UploadCheck(u.OidPath)`.
The receiver is not modified. -/
def Uploadable.Check (env : Env) (u : Uploadable) :
    Option ObjectResource × Option GoError :=
  env.uploadCheck u.OidPath

/-- Embedding of `func (u *Uploadable) Object()`. -/
def Uploadable.Object (u : Uploadable) : Option ObjectResource := u.object

/-- Embedding of `func (u *Uploadable) Oid()`. -/
def Uploadable.Oid (u : Uploadable) : String := u.oid

/-- Embedding of `func (u *Uploadable) Size()`. -/
def Uploadable.Size (u : Uploadable) : Int := u.size

/-- Embedding of `func (u *Uploadable) Name()`. -/
def Uploadable.Name (u : Uploadable) : String := u.Filename

/-- Embedding of `func (u *Uploadable) SetObject(o *api.ObjectResource)`: the only
operation that writes the `object` field. -/
def Uploadable.SetObject (u : Uploadable) (o : Option ObjectResource) : Uploadable :=
  { u with object := o }

/-- Trace of one `Transfer` call: paths passed to `os.Open`, the
`ObjectResource` handed to the external upload (none if the call failed
before uploading), and the sequence of progress-callback invocations
`(total, bytesSoFar, chunkSize)`. -/
structure TransferTrace where
  opens : List String := []
  uploaded : Option ObjectResource := none
  callbacks : List (Int × Int × Int) := []
  deriving Repr, DecidableEq

/-- Modelled from the spec: the progress side of `progress.CallbackReader`
(not under `src/`), which wraps the opened CAS file with `TotalSize` set to
the authorized resource's size and fires the callback after each chunk read
with `(totalBytes, bytesSentSoFar, chunkSize)`, the second component
accumulating the chunk sizes.  `callbackCalls total read chunks` is the list
of callback invocations produced when the chunks are streamed starting from
`read` bytes already sent. -/
def callbackCalls (total : Int) : Int → List Int → List (Int × Int × Int)
  | _, [] => []
  | read, c :: cs => (total, read + c, c) :: callbackCalls total (read + c) cs

/-- Embedding of `func (u *Uploadable) Transfer(cb)`: wraps `cb`, resolves
`LocalMediaPath(u.object.Oid)` — a nil dereference if `u.object` is nil —
opens that path, and hands the file wrapped in a `CallbackReader` with
`TotalSize = u.object.Size` to `api.UploadObject(u.object, reader)`.
The upload (modelled from the spec: `api.UploadObject` is not under `src/`)
streams the reader to the authorized upload URL, so the callback fires once
per chunk of the opened file; its transport result is `env.uploadObject`. -/
def Uploadable.Transfer (env : Env) (fs : FS) (u : Uploadable) :
    GoResult (Option GoError) × TransferTrace :=
  match u.object with
  | none => (.crash "nil pointer dereference", {})
  | some o =>
    match env.localMediaPath o.Oid with
    | .error err => (.ok (some err), {})
    | .ok path =>
      match fs.files path with
      | none => (.ok (some (.ioErr path "open")), { opens := [path] })
      | some file =>
        (.ok (env.uploadObject o),
         { opens := [path], uploaded := some o,
           callbacks := callbackCalls o.Size 0 file.chunks })

/-! ### Concrete sample environments used by the witnesses -/

/-- A sample CAS file of size 12. -/
def casFile : GoFile := { chunks := [5, 7] }

/-- A sample working-copy file of size 7. -/
def workFile : GoFile := { chunks := [3, 4] }

/-- A filesystem holding the CAS object at `"abc"` and a working-copy file at
`"/wd/f"`. -/
def fsBoth : FS :=
  { files := fun p =>
      if p = "abc" then some casFile
      else if p = "/wd/f" then some workFile
      else none }

/-- A filesystem holding only the working-copy file at `"/wd/f"`. -/
def fsWorkOnly : FS :=
  { files := fun p => if p = "/wd/f" then some workFile else none }

/-- An empty filesystem. -/
def fsEmpty : FS := { files := fun _ => none }

/-- A sample environment: working directory `"/wd"`, `LocalMediaPath` the
identity on OIDs, a clean transform that always yields a pointer with OID
`"abc"` and leaves the filesystem unchanged, and an upload that succeeds. -/
def envId : Env :=
  { localWorkingDir := "/wd"
    localMediaPath := fun oid => .ok oid
    pointerClean := fun _ _ fs => (some { Oid := "abc" }, none, fs)
    uploadObject := fun _ => none
    uploadCheck := fun _ => (none, none) }

/-- Like `envId` but `LocalMediaPath` always fails. -/
def envBadPath : Env :=
  { envId with localMediaPath := fun _ => .error (.ioErr "media" "mkdir") }

/-! ### C1: CAS hit short-circuits reconciliation -/

/-- C1: when the CAS already has content at the clean path (`os.Stat`
succeeds), `ensureFile` succeeds immediately: it returns nil, leaves the
filesystem unchanged, opens no file, never runs the clean transform, and
performs no integrity check (the empty trace records no opens and no clean
calls, and the result does not depend on the working copy's content). -/
theorem ensureFile_cas_hit (env : Env) (fs : FS) (smudgePath cleanPath : String)
    (f : GoFile) (h : fs.files cleanPath = some f) :
    ensureFile env fs smudgePath cleanPath = (.ok none, fs, {}) := by
  unfold ensureFile
  rw [h]

/-- Witness for C1 at a concrete input: the CAS holds `"abc"`, and the call
succeeds with the empty trace. -/
theorem ensureFile_cas_hit_witness :
    fsBoth.files "abc" = some casFile ∧
    ensureFile envId fsBoth "f" "abc" = (.ok none, fsBoth, {}) :=
  ⟨rfl, ensureFile_cas_hit envId fsBoth "f" "abc" casFile rfl⟩

/-! ### C2: clean-and-verify path -/

/-- C2: when the CAS entry is absent and cleaning the working-copy file
succeeds (non-nil pointer, nil error), `ensureFile` compares the expected
identifier — the base name of the clean path — with the freshly computed OID:
on mismatch it returns the error naming both the expected identifier and the
(smudge) path; on match it returns nil. -/
theorem ensureFile_clean_verify (env : Env) (fs : FS) (smudgePath cleanPath : String)
    (file : GoFile) (p : Pointer) (fs2 : FS)
    (hcas : fs.files cleanPath = none)
    (hopen : fs.files (filepathJoin env.localWorkingDir smudgePath) = some file)
    (hstat : file.fstatErr = none)
    (hclean : env.pointerClean (filepathJoin env.localWorkingDir smudgePath) file.size fs
              = (some p, none, fs2)) :
    ensureFile env fs smudgePath cleanPath =
      ((if filepathBase cleanPath = p.Oid then .ok none
        else .ok (some (.oidMismatch smudgePath (filepathBase cleanPath)
          (filepathDir cleanPath)))), fs2,
       { opens := [filepathJoin env.localWorkingDir smudgePath],
         cleans := 1, teardowns := 1 }) := by
  simp only [ensureFile, hcas, hopen, hstat, hclean, Option.isSome_some, if_true]
  split <;> rfl

/-- Witness for C2 at a concrete input: CAS misses `"abc"`, the working copy
at `"/wd/f"` cleans to OID `"abc"`, and the comparison decides the result. -/
theorem ensureFile_clean_verify_witness :
    fsWorkOnly.files "abc" = none ∧
    ensureFile envId fsWorkOnly "f" "abc" =
      ((if filepathBase "abc" = Pointer.Oid { Oid := "abc" } then .ok none
        else .ok (some (.oidMismatch "f" (filepathBase "abc") (filepathDir "abc")))),
       fsWorkOnly,
       { opens := [filepathJoin envId.localWorkingDir "f"],
         cleans := 1, teardowns := 1 }) :=
  ⟨rfl, ensureFile_clean_verify envId fsWorkOnly "f" "abc" workFile
    { Oid := "abc" } fsWorkOnly rfl rfl rfl rfl⟩

/-! ### C3: unconditional teardown of the staging resource -/

/-- An environment whose clean transform fails but still returns a non-nil
pointer (the scoped staging handle). -/
def envCleanFail : Env :=
  { envId with
      pointerClean := fun _ _ fs => (some { Oid := "zzz" }, some (.cleanErr "boom"), fs) }

/-- C3: on every exit path of `ensureFile` that follows a `PointerClean` call
returning a non-nil pointer — clean error, OID mismatch, or success —
`Teardown` is invoked on that pointer exactly once before the function
returns. -/
theorem ensureFile_teardown_once (env : Env) (fs : FS) (smudgePath cleanPath : String)
    (file : GoFile) (p : Pointer) (cerr : Option GoError) (fs2 : FS)
    (hcas : fs.files cleanPath = none)
    (hopen : fs.files (filepathJoin env.localWorkingDir smudgePath) = some file)
    (hstat : file.fstatErr = none)
    (hclean : env.pointerClean (filepathJoin env.localWorkingDir smudgePath) file.size fs
              = (some p, cerr, fs2)) :
    (ensureFile env fs smudgePath cleanPath).2.2.teardowns = 1 := by
  rcases cerr with _ | e
  · simp only [ensureFile, hcas, hopen, hstat, hclean, Option.isSome_some, if_true]
    split <;> rfl
  · simp only [ensureFile, hcas, hopen, hstat, hclean, Option.isSome_some, if_true]

/-- Witness for C3 at a concrete input: the clean transform fails with an
error yet returns a staging pointer, and the trace records one teardown. -/
theorem ensureFile_teardown_once_witness :
    fsWorkOnly.files "abc" = none ∧
    (ensureFile envCleanFail fsWorkOnly "f" "abc").2.2.teardowns = 1 :=
  ⟨rfl, ensureFile_teardown_once envCleanFail fsWorkOnly "f" "abc" workFile
    { Oid := "zzz" } (some (.cleanErr "boom")) fsWorkOnly rfl rfl rfl rfl⟩

/-! ### C10: both CAS entry and working copy absent -/

/-- C10: when neither the CAS entry nor the working-copy file (resolved under
the local working directory) exists, `ensureFile` fails with the file-open
error for the working-copy path — never an OID-mismatch error — and the clean
transform is never invoked. -/
theorem ensureFile_both_absent (env : Env) (fs : FS) (smudgePath cleanPath : String)
    (hcas : fs.files cleanPath = none)
    (hopen : fs.files (filepathJoin env.localWorkingDir smudgePath) = none) :
    ensureFile env fs smudgePath cleanPath =
      (.ok (some (.ioErr (filepathJoin env.localWorkingDir smudgePath) "open")), fs,
       { opens := [filepathJoin env.localWorkingDir smudgePath] }) ∧
    (∀ s e d, GoError.ioErr (filepathJoin env.localWorkingDir smudgePath) "open" ≠
      GoError.oidMismatch s e d) := by
  refine ⟨?_, fun s e d h => by cases h⟩
  simp only [ensureFile, hcas, hopen]

/-- Witness for C10 at a concrete input: the empty filesystem; the call
returns the open error for `"/wd/f"` and the trace shows no clean call. -/
theorem ensureFile_both_absent_witness :
    fsEmpty.files "abc" = none ∧
    (ensureFile envId fsEmpty "f" "abc" =
      (.ok (some (.ioErr (filepathJoin envId.localWorkingDir "f") "open")), fsEmpty,
       { opens := [filepathJoin envId.localWorkingDir "f"] }) ∧
     ∀ s e d, GoError.ioErr (filepathJoin envId.localWorkingDir "f") "open" ≠
       GoError.oidMismatch s e d) :=
  ⟨rfl, ensureFile_both_absent envId fsEmpty "f" "abc" rfl rfl⟩

/-! ### Shared helper lemmas about `NewUploadable` and `ensureFile` -/

/-- Helper: `ensureFile` never panics when the clean transform honours its contract
(spec §4.2: a nil error implies a non-nil pointer). -/
theorem ensureFile_no_crash (env : Env) (fs : FS) (smudgePath cleanPath : String)
    (hwf : ∀ p s f, (env.pointerClean p s f).1 = none →
      ((env.pointerClean p s f).2.1).isSome = true) :
    ∀ m, (ensureFile env fs smudgePath cleanPath).1 ≠ .crash m := by
  intro m
  unfold ensureFile
  rcases h1 : fs.files cleanPath with _ | f <;> simp only [h1]
  · rcases h2 : fs.files (filepathJoin env.localWorkingDir smudgePath) with _ | file <;>
      simp only [h2]
    · simp
    · rcases h3 : file.fstatErr with _ | e <;> simp only [h3]
      · rcases hce : (env.pointerClean (filepathJoin env.localWorkingDir smudgePath)
            file.size fs).2.1 with _ | e <;> simp only [hce]
        · rcases hcl : (env.pointerClean (filepathJoin env.localWorkingDir smudgePath)
              file.size fs).1 with _ | p <;> simp only [hcl]
          · have := hwf (filepathJoin env.localWorkingDir smudgePath) file.size fs hcl
            rw [hce] at this
            simp at this
          · split <;> simp
        · simp
      · simp
  · simp

/-- Shape of every successful construction: `LocalMediaPath` resolved to some
`lmp`, the final filesystem holds a file there, and the `Uploadable` is built
from `oid`, `lmp`, `filename`, that file's size, and a nil `object`. -/
theorem NewUploadable_ok_shape (env : Env) (fs : FS) (oid filename : String)
    (u : Uploadable) (fs2 : FS) (tr : Trace)
    (h : NewUploadable env fs oid filename = (.ok (.ok u), fs2, tr)) :
    ∃ lmp fi, env.localMediaPath oid = .ok lmp ∧ fs2.files lmp = some fi ∧
      u = { oid := oid, OidPath := lmp, Filename := filename,
            size := fi.size, object := none } := by
  rcases hL : env.localMediaPath oid with e | lmp
  · simp only [NewUploadable, hL] at h
    simp at h
  · refine ⟨lmp, ?_⟩
    by_cases hf : filename.length > 0
    · rcases hE : ensureFile env fs filename lmp with ⟨r, fsE, trE⟩
      simp only [NewUploadable, hL, if_pos hf, hE] at h
      rcases r with val | m
      · rcases val with _ | e
        · rcases hfi : fsE.files lmp with _ | fi
          · simp only [hfi] at h
            simp at h
          · simp only [hfi] at h
            simp only [Prod.mk.injEq, GoResult.ok.injEq, Except.ok.injEq] at h
            obtain ⟨hu, hfs, htr⟩ := h
            exact ⟨fi, rfl, by rw [← hfs]; exact hfi, hu.symm⟩
        · simp at h
      · simp at h
    · simp only [NewUploadable, hL, if_neg hf] at h
      rcases hfi : fs.files lmp with _ | fi
      · simp only [hfi] at h
        simp at h
      · simp only [hfi] at h
        simp only [Prod.mk.injEq, GoResult.ok.injEq, Except.ok.injEq] at h
        obtain ⟨hu, hfs, htr⟩ := h
        exact ⟨fi, rfl, by rw [← hfs]; exact hfi, hu.symm⟩

/-! ### C4: reconciliation at construction time -/

/-- C4, counterexample to the claim as stated: with a non-empty filename but
a failing `LocalMediaPath`, `NewUploadable` returns before the reconciliation
check, so `ensureFile` is *not* run even though the filename is non-empty —
the claimed "if and only if filename is non-empty" fails on this input. -/
theorem NewUploadable_ensure_iff_fails :
    (NewUploadable envBadPath fsBoth "abc" "f").2.2.ensures = [] ∧
    ("f" : String) ≠ "" :=
  ⟨rfl, by decide⟩

/-- C4, amended: provided `LocalMediaPath(oid)` resolves, `NewUploadable`
runs `ensureFile(filename, localMediaPath)` if and only if the filename is
non-empty, and any reconciliation failure is returned as that very error at
construction time, before any `Uploadable` is produced. -/
theorem NewUploadable_ensure_iff (env : Env) (fs : FS) (oid filename lmp : String)
    (hlmp : env.localMediaPath oid = .ok lmp) :
    ((NewUploadable env fs oid filename).2.2.ensures =
       if filename.length > 0 then [(filename, lmp)] else []) ∧
    (∀ e fs2 tr, filename.length > 0 →
       ensureFile env fs filename lmp = (.ok (some e), fs2, tr) →
       NewUploadable env fs oid filename =
         (.ok (.error e), fs2, { tr with ensures := [(filename, lmp)] })) := by
  constructor
  · by_cases hf : filename.length > 0
    · rcases hE : ensureFile env fs filename lmp with ⟨r, fsE, trE⟩
      simp only [NewUploadable, hlmp, if_pos hf, hE]
      rcases r with val | m
      · rcases val with _ | e
        · rcases hfi : fsE.files lmp with _ | fi <;> simp only [hfi]
        · rfl
      · rfl
    · simp only [NewUploadable, hlmp, if_neg hf]
      rcases hfi : fs.files lmp with _ | fi <;> simp only [hfi]
  · intro e fs2 tr hf hE
    simp only [NewUploadable, hlmp, if_pos hf, hE]

/-- Witness for the amended C4 at a concrete input: path resolution succeeds
and the trace records exactly one reconciliation call for filename `"f"`. -/
theorem NewUploadable_ensure_iff_witness :
    envId.localMediaPath "abc" = Except.ok "abc" ∧
    ((NewUploadable envId fsBoth "abc" "f").2.2.ensures =
       if ("f" : String).length > 0 then [("f", "abc")] else []) ∧
    (∀ e fs2 tr, ("f" : String).length > 0 →
       ensureFile envId fsBoth "f" "abc" = (.ok (some e), fs2, tr) →
       NewUploadable envId fsBoth "abc" "f" =
         (.ok (.error e), fs2, { tr with ensures := [("f", "abc")] })) :=
  ⟨rfl, NewUploadable_ensure_iff envId fsBoth "abc" "f" "abc" rfl⟩

/-! ### C5: upload-bound construction needs local content -/

/-- C5: assuming path resolution succeeds and the clean transform honours
its contract (nil error implies non-nil pointer), `NewUploadable` returns an
error whenever the local CAS object at `LocalMediaPath(oid)` does not exist
after the optional reconciliation step (the final filesystem state), and a
successful construction implies the CAS file exists there, with the recorded
size taken from that file. -/
theorem NewUploadable_requires_local (env : Env) (fs : FS) (oid filename lmp : String)
    (hlmp : env.localMediaPath oid = .ok lmp)
    (hwf : ∀ p s f, (env.pointerClean p s f).1 = none →
      ((env.pointerClean p s f).2.1).isSome = true) :
    (((NewUploadable env fs oid filename).2.1).files lmp = none →
       ∃ e, (NewUploadable env fs oid filename).1 = .ok (.error e)) ∧
    (∀ u fs2 tr, NewUploadable env fs oid filename = (.ok (.ok u), fs2, tr) →
       ∃ fi, fs2.files lmp = some fi ∧ u.size = fi.size ∧ u.OidPath = lmp) := by
  constructor
  · intro habs
    by_cases hf : filename.length > 0
    · rcases hE : ensureFile env fs filename lmp with ⟨r, fsE, trE⟩
      simp only [NewUploadable, hlmp, if_pos hf, hE] at habs ⊢
      rcases r with val | m
      · rcases val with _ | e
        · rcases hfi : fsE.files lmp with _ | fi
          · simp only [hfi]
            exact ⟨_, rfl⟩
          · simp only [hfi] at habs
            simp at habs
        · exact ⟨e, rfl⟩
      · have := ensureFile_no_crash env fs filename lmp hwf m
        rw [hE] at this
        simp at this
    · simp only [NewUploadable, hlmp, if_neg hf] at habs ⊢
      rcases hfi : fs.files lmp with _ | fi
      · simp only [hfi]
        exact ⟨_, rfl⟩
      · simp only [hfi] at habs
        simp at habs
  · intro u fs2 tr h
    obtain ⟨lmp2, fi, hL2, hfi, hu⟩ := NewUploadable_ok_shape env fs oid filename u fs2 tr h
    rw [hlmp] at hL2
    cases hL2
    exact ⟨fi, hfi, by rw [hu], by rw [hu]⟩

/-- Witness for C5 at a concrete input: with the empty filesystem and no
filename, construction fails because the CAS object is absent; the clean
contract holds for `envId`. -/
theorem NewUploadable_requires_local_witness :
    envId.localMediaPath "abc" = Except.ok "abc" ∧
    ((((NewUploadable envId fsEmpty "abc" "").2.1).files "abc" = none →
       ∃ e, (NewUploadable envId fsEmpty "abc" "").1 = .ok (.error e)) ∧
     (∀ u fs2 tr, NewUploadable envId fsEmpty "abc" "" = (.ok (.ok u), fs2, tr) →
       ∃ fi, fs2.files "abc" = some fi ∧ u.size = fi.size ∧ u.OidPath = "abc")) :=
  ⟨rfl, NewUploadable_requires_local envId fsEmpty "abc" "" "abc" rfl
    (fun p s f h => by simp [envId] at h)⟩

/-! ### C7: OID immutability and one-shot object field -/

/-- The `Uploadable` that `NewUploadable envId fsBoth "abc" "f"` constructs. -/
def sampleUpload : Uploadable :=
  { oid := "abc", OidPath := "abc", Filename := "f", size := casFile.size,
    object := none }

/-- A sample authorized resource for OID `"abc"`. -/
def res1 : ObjectResource := { Oid := "abc", Size := casFile.size }

/-- C7: a successfully constructed `Uploadable` carries the constructor's
`oid` and a nil `object` (so `Object()` returns nil until authorization
sets it), and `SetObject` — the sole operation that writes the `object`
field — sets `Object()` to its argument while leaving `Oid()` (and the
other fields) unchanged. -/
theorem Uploadable_oid_immutable (env : Env) (fs : FS) (oid filename : String) :
    (∀ u fs2 tr, NewUploadable env fs oid filename = (.ok (.ok u), fs2, tr) →
       u.Oid = oid ∧ u.Object = none) ∧
    (∀ (u : Uploadable) (o : Option ObjectResource),
       (u.SetObject o).Oid = u.Oid ∧ (u.SetObject o).Object = o ∧
       (u.SetObject o).Size = u.Size ∧ (u.SetObject o).Name = u.Name) := by
  constructor
  · intro u fs2 tr h
    obtain ⟨lmp, fi, hL, hfi, hu⟩ := NewUploadable_ok_shape env fs oid filename u fs2 tr h
    rw [hu]
    exact ⟨rfl, rfl⟩
  · intro u o
    exact ⟨rfl, rfl, rfl, rfl⟩

/-- Witness for C7 at a concrete input: the constructed `sampleUpload` has
OID `"abc"` and a nil object, and `SetObject` updates only the object. -/
theorem Uploadable_oid_immutable_witness :
    (sampleUpload.Oid = "abc" ∧ sampleUpload.Object = none) ∧
    ((sampleUpload.SetObject (some res1)).Oid = sampleUpload.Oid ∧
     (sampleUpload.SetObject (some res1)).Object = some res1 ∧
     (sampleUpload.SetObject (some res1)).Size = sampleUpload.Size ∧
     (sampleUpload.SetObject (some res1)).Name = sampleUpload.Name) :=
  ⟨(Uploadable_oid_immutable envId fsBoth "abc" "f").1 sampleUpload fsBoth
      { ensures := [("f", "abc")] } rfl,
   (Uploadable_oid_immutable envId fsBoth "abc" "f").2 sampleUpload (some res1)⟩

/-! ### C9: accessors fixed by construction -/

/-- C9: a successfully constructed `Uploadable` has `Oid()` equal to the
`oid` argument, `Name()` equal to the `filename` argument, and `Size()`
equal to the size of the on-disk CAS file at `LocalMediaPath(oid)` in the
construction-time filesystem state — the file `OidPath` points at, not the
working-copy file. -/
theorem NewUploadable_accessors (env : Env) (fs : FS) (oid filename : String)
    (u : Uploadable) (fs2 : FS) (tr : Trace)
    (h : NewUploadable env fs oid filename = (.ok (.ok u), fs2, tr)) :
    u.Oid = oid ∧ u.Name = filename ∧
    ∃ fi, fs2.files u.OidPath = some fi ∧ u.Size = fi.size := by
  obtain ⟨lmp, fi, hL, hfi, hu⟩ := NewUploadable_ok_shape env fs oid filename u fs2 tr h
  rw [hu]
  exact ⟨rfl, rfl, fi, hfi, rfl⟩

/-- Witness for C9 at a concrete input where the CAS file (size 12) and the
working-copy file (size 7) differ: the recorded size is the CAS file's. -/
theorem NewUploadable_accessors_witness :
    NewUploadable envId fsBoth "abc" "f" =
      (.ok (.ok sampleUpload), fsBoth, { ensures := [("f", "abc")] }) ∧
    (sampleUpload.Oid = "abc" ∧ sampleUpload.Name = "f" ∧
      ∃ fi, fsBoth.files sampleUpload.OidPath = some fi ∧ sampleUpload.Size = fi.size) ∧
    sampleUpload.Size = 12 ∧ workFile.size = 7 :=
  ⟨rfl,
   NewUploadable_accessors envId fsBoth "abc" "f" sampleUpload fsBoth
     { ensures := [("f", "abc")] } rfl,
   by decide, by decide⟩

/-! ### C6: Transfer streams the CAS object with per-chunk progress -/

/-- The callback fires once per chunk. -/
theorem callbackCalls_length (total : Int) (cs : List Int) :
    ∀ r : Int, (callbackCalls total r cs).length = cs.length := by
  induction cs with
  | nil => intro r; rfl
  | cons c cs ih => intro r; simp [callbackCalls, ih]

/-- The i-th callback reports the fixed total, the cumulative bytes through
the i-th chunk (offset by the starting count `r`), and the i-th chunk's
size. -/
theorem callbackCalls_get (total : Int) (cs : List Int) :
    ∀ (r : Int) (i : Nat) (h1 : i < (callbackCalls total r cs).length)
      (h2 : i < cs.length),
      (callbackCalls total r cs).get ⟨i, h1⟩ =
        (total, r + (cs.take (i + 1)).sum, cs.get ⟨i, h2⟩) := by
  induction cs with
  | nil => intro r i h1 h2; exact absurd h2 (by simp)
  | cons c cs ih =>
    intro r i h1 h2
    cases i with
    | zero => simp [callbackCalls]
    | succ n =>
      have h1' : n < (callbackCalls total (r + c) cs).length := by
        rw [callbackCalls_length]
        exact Nat.lt_of_succ_lt_succ (by simpa [callbackCalls_length] using h1)
      have h2' : n < cs.length := Nat.lt_of_succ_lt_succ h2
      simp only [callbackCalls, List.get_cons_succ]
      rw [ih (r + c) n h1' h2']
      simp [add_assoc]

/-- C6: for an `Uploadable` whose `ObjectResource` has been set,
`Transfer` opens the CAS-resident object at the path `LocalMediaPath`
derives from the authorized resource's OID, hands exactly that resource to
the upload, and fires the progress callback once per chunk with
`(totalBytes, bytesSentSoFar, chunkSize)`, where `totalBytes` is the
authorized resource's size and `bytesSentSoFar` accumulates the chunk
sizes. -/
theorem Transfer_streams (env : Env) (fs : FS) (u : Uploadable)
    (o : ObjectResource) (path : String) (file : GoFile)
    (ho : u.object = some o)
    (hp : env.localMediaPath o.Oid = .ok path)
    (hf : fs.files path = some file) :
    Uploadable.Transfer env fs u =
      (.ok (env.uploadObject o),
       { opens := [path], uploaded := some o,
         callbacks := callbackCalls o.Size 0 file.chunks }) ∧
    (callbackCalls o.Size 0 file.chunks).length = file.chunks.length ∧
    ∀ (i : Nat) (h1 : i < (callbackCalls o.Size 0 file.chunks).length)
      (h2 : i < file.chunks.length),
      (callbackCalls o.Size 0 file.chunks).get ⟨i, h1⟩ =
        (o.Size, (file.chunks.take (i + 1)).sum, file.chunks.get ⟨i, h2⟩) := by
  refine ⟨?_, callbackCalls_length o.Size file.chunks 0, ?_⟩
  · simp only [Uploadable.Transfer, ho, hp, hf]
  · intro i h1 h2
    rw [callbackCalls_get o.Size file.chunks 0 i h1 h2, zero_add]

/-- Witness for C6 at a concrete input: a resource of size 12 over the CAS
file with chunks `[5, 7]`; the call uploads that resource and reports
`(12, 5, 5)` then `(12, 12, 7)`. -/
theorem Transfer_streams_witness :
    (sampleUpload.SetObject (some res1)).object = some res1 ∧
    (Uploadable.Transfer envId fsBoth (sampleUpload.SetObject (some res1)) =
      (.ok (envId.uploadObject res1),
       { opens := ["abc"], uploaded := some res1,
         callbacks := callbackCalls res1.Size 0 casFile.chunks }) ∧
     (callbackCalls res1.Size 0 casFile.chunks).length = casFile.chunks.length ∧
     ∀ (i : Nat) (h1 : i < (callbackCalls res1.Size 0 casFile.chunks).length)
       (h2 : i < casFile.chunks.length),
       (callbackCalls res1.Size 0 casFile.chunks).get ⟨i, h1⟩ =
         (res1.Size, (casFile.chunks.take (i + 1)).sum, casFile.chunks.get ⟨i, h2⟩)) ∧
    callbackCalls res1.Size 0 casFile.chunks = [(12, 5, 5), (12, 12, 7)] :=
  ⟨rfl,
   Transfer_streams envId fsBoth (sampleUpload.SetObject (some res1)) res1
     "abc" casFile rfl rfl rfl,
   by decide⟩

/-! ### C8: Transfer with a nil object crashes; set object makes it total -/

/-- C8: calling `Transfer` on an `Uploadable` whose `object` is nil
dereferences a nil pointer (modelled as `crash`); once `SetObject` has been
called with a non-nil `ObjectResource`, `Transfer` is well-defined — it
returns a normal `GoResult.ok` value on every environment and filesystem,
never the crash. -/
theorem Transfer_nil_object (env : Env) (fs : FS) :
    (∀ u : Uploadable, u.object = none →
       (Uploadable.Transfer env fs u).1 = .crash "nil pointer dereference") ∧
    (∀ (u : Uploadable) (o : ObjectResource),
       ((Uploadable.Transfer env fs (u.SetObject (some o))).1).isOk = true) := by
  constructor
  · intro u h
    simp only [Uploadable.Transfer, h]
  · intro u o
    simp only [Uploadable.Transfer, Uploadable.SetObject]
    rcases hL : env.localMediaPath o.Oid with e | path <;> simp only [hL]
    · rfl
    · rcases hfi : fs.files path with _ | file <;> simp only [hfi] <;> rfl

/-- Witness for C8 at a concrete input: `sampleUpload` has a nil object and
crashes; after `SetObject` the same call returns normally. -/
theorem Transfer_nil_object_witness :
    (Uploadable.Transfer envId fsBoth sampleUpload).1 = .crash "nil pointer dereference" ∧
    ((Uploadable.Transfer envId fsBoth (sampleUpload.SetObject (some res1))).1).isOk = true :=
  ⟨(Transfer_nil_object envId fsBoth).1 sampleUpload rfl,
   (Transfer_nil_object envId fsBoth).2 sampleUpload res1⟩

end Lfs
